import Mathlib

/-!
Verification of the dual-connection FTP transfer engine with SOCKS5 tunneling
(sources: src/transfer.ts and src/proxySocket.ts).

The TypeScript sources are embedded shallowly: pure helpers become Lean
functions over `List Char` / `Nat`, stateful classes become explicit state
records with transition functions, thrown exceptions become `Option`/sum
results, and JavaScript numbers are modeled as `Int`/`Nat` with explicit
`% 256` where byte truncation happens (`Buffer.from`).  `NaN` is modeled as
`none` of `Option Int` at the points where it can arise.
-/

/-! ## JavaScript number and string primitives used by the sources -/

/-- Byte conversion applied by `Buffer.from` to each pushed number:
`NaN` (modeled as `none`) becomes 0, other values are truncated mod 256. -/
def toUInt8Byte : Option Int → Nat
  | none => 0
  | some i => (i % 256).toNat

/-- Value of a list of decimal digit characters, most significant first. -/
def decDigitsVal (cs : List Char) : Nat :=
  cs.foldl (fun a c => a * 10 + (c.toNat - 48)) 0

/-- Core of JS `parseInt(s, 10)` after the optional sign: take the leading
run of decimal digits; no digits means `NaN` (`none`).  Call sites in the
sources never pass leading whitespace, so it is not modeled. -/
def jsParseIntCore (cs : List Char) : Option Nat :=
  let ds := cs.takeWhile Char.isDigit
  if ds.isEmpty then none else some (decDigitsVal ds)

/-- JS `parseInt(s, 10)`: optional sign, then leading decimal digits. -/
def jsParseInt (cs : List Char) : Option Int :=
  match cs with
  | [] => none
  | c :: rest =>
    if c == '-' then (jsParseIntCore rest).map (fun n => -(n : Int))
    else if c == '+' then (jsParseIntCore rest).map (fun n => (n : Int))
    else jsParseIntCore (c :: rest)

/-- Hexadecimal digit recognizer for JS `parseInt(s, 16)`. -/
def isHexDigit (c : Char) : Bool :=
  c.isDigit || ('a' ≤ c && c ≤ 'f') || ('A' ≤ c && c ≤ 'F')

/-- Value of one hexadecimal digit character. -/
def hexDigitVal (c : Char) : Nat :=
  if c.isDigit then c.toNat - 48
  else if 'a' ≤ c && c ≤ 'f' then c.toNat - 87
  else c.toNat - 55

/-- Value of a list of hexadecimal digit characters, most significant first. -/
def hexDigitsVal (cs : List Char) : Nat :=
  cs.foldl (fun a c => a * 16 + hexDigitVal c) 0

/-- JS `parseInt(s, 16)` as used on IPv6 groups: leading run of hex digits,
`NaN` (`none`) if there is none.  (Signs and a `0x` prefix never occur at the
call site.) -/
def jsParseHex (cs : List Char) : Option Nat :=
  let ds := cs.takeWhile isHexDigit
  if ds.isEmpty then none else some (hexDigitsVal ds)

/-- JS `String.prototype.split` with a single-character separator. -/
def jsSplit (sep : Char) : List Char → List (List Char)
  | [] => [[]]
  | c :: cs =>
    match jsSplit sep cs with
    | [] => [[]]
    | r :: rs => if c == sep then [] :: r :: rs else (c :: r) :: rs

/-- Join parts with a single-character separator (inverse of `jsSplit`),
used to state theorems about host strings of the form `a.b.c.d` / `x:y:z`. -/
def joinSep (sep : Char) : List (List Char) → List Char
  | [] => []
  | [p] => p
  | p :: ps => p ++ sep :: joinSep sep ps

/-! ## transfer.ts: parsePasvResponse

The source matches the message against the regular expression
`([-\d]+,[-\d]+,[-\d]+,[-\d]+),([-\d]+),([-\d]+)`.  Because the character
class `[-\d]` and the literal `,` are disjoint, the backtracking regex search
is equivalent to: at each start position (leftmost first), six maximal runs
of `[-\d]` characters separated by literal commas. -/

/-- Characters matched by the class `[-\d]` of the PASV regex. -/
def isPasvChar (c : Char) : Bool := c.isDigit || c == '-'

/-- One `[-\d]+` group: the maximal leading run, failing when empty. -/
def grabRun (cs : List Char) : Option (List Char × List Char) :=
  let run := cs.takeWhile isPasvChar
  if run.isEmpty then none else some (run, cs.dropWhile isPasvChar)

/-- Consume the literal `,` of the PASV regex. -/
def expectComma (cs : List Char) : Option (List Char) :=
  match cs with
  | c :: rest => if c == ',' then some rest else none
  | [] => none

/-- The PASV regex, anchored at the start of `cs`.  Returns the three capture
groups `(h1,h2,h3,h4)`, `p1`, `p2` on success. -/
def pasvMatchAt (cs : List Char) : Option (List Char × List Char × List Char) :=
  (grabRun cs).bind (fun p1 =>
  (expectComma p1.2).bind (fun c1 =>
  (grabRun c1).bind (fun p2 =>
  (expectComma p2.2).bind (fun c2 =>
  (grabRun c2).bind (fun p3 =>
  (expectComma p3.2).bind (fun c3 =>
  (grabRun c3).bind (fun p4 =>
  (expectComma p4.2).bind (fun c4 =>
  (grabRun c4).bind (fun p5 =>
  (expectComma p5.2).bind (fun c5 =>
  (grabRun c5).bind (fun p6 =>
  some (p1.1 ++ [','] ++ p2.1 ++ [','] ++ p3.1 ++ [','] ++ p4.1, p5.1, p6.1))))))))))))

/-- Leftmost match of the PASV regex: try every start position in order. -/
def pasvSearch : List Char → Option (List Char × List Char × List Char)
  | [] => none
  | c :: rest =>
    match pasvMatchAt (c :: rest) with
    | some g => some g
    | none => pasvSearch rest

/-- Host/port pair returned by `parsePasvResponse`. -/
structure PasvTarget where
  host : String
  port : Nat
  deriving DecidableEq, Repr

/-- JS `x & 255` applied to a `parseInt` result: `NaN & 255` is 0 and for
integers `ToInt32(x) & 255 = x mod 256` (nonnegative). -/
def jsAnd255 : Option Int → Nat
  | none => 0
  | some i => (i % 256).toNat

/-- Core of `parsePasvResponse` over the message characters. -/
def parsePasvList (cs : List Char) : Option PasvTarget :=
  match pasvSearch cs with
  | none => none
  | some (g1, g2, g3) =>
    some { host := String.mk (g1.map (fun c => if c == ',' then '.' else c)),
           port := jsAnd255 (jsParseInt g2) * 256 + jsAnd255 (jsParseInt g3) }

/-- `parsePasvResponse` (transfer.ts, lines 71-81).  A failed match throws in
the source, modeled as `none`.  (On a successful match the source's
`groups.length !== 4` check always passes: the array is the full match plus
the three capture groups.)  The host is capture group 1 with commas replaced
by dots; the port combines `parseInt` of groups 2 and 3 with `& 255`. -/
def parsePasvResponse (message : String) : Option PasvTarget :=
  parsePasvList message.data

/-! ## transfer.ts: enterPassiveModeIPv4 (NAT repair) -/

/-- One dotted-quad octet: nonempty, all decimal digits, value at most 255. -/
def isOctet (cs : List Char) : Bool :=
  !cs.isEmpty && cs.all Char.isDigit && decide (decDigitsVal cs ≤ 255)

/-- Modelled from the spec: `ipIsPrivateV4Address` lives in `netUtils.ts`,
which is not under src/.  Spec section 4.5 defines it as membership in the
RFC1918 private IPv4 ranges `10.0.0.0/8`, `172.16.0.0/12`, `192.168.0.0/16`. -/
def ipIsPrivateV4Address (host : String) : Bool :=
  match jsSplit '.' host.data with
  | [a, b, c, d] =>
    isOctet a && isOctet b && isOctet c && isOctet d &&
    (decDigitsVal a == 10 ||
     (decDigitsVal a == 172 && decide (16 ≤ decDigitsVal b) && decide (decDigitsVal b ≤ 31)) ||
     (decDigitsVal a == 192 && decDigitsVal b == 168))
  | _ => false

/-- Data-connection host selection in `enterPassiveModeIPv4` (transfer.ts,
lines 60-63).  `controlHost` is `ftp.socket.remoteAddress`; the source tests
it for JS truthiness, so `undefined` (`none`) and the empty string both
leave the parsed host in place. -/
def natRepairHost (parsedHost : String) (controlHost : Option String) : String :=
  match controlHost with
  | some ch =>
    if ipIsPrivateV4Address parsedHost && ch != "" && !ipIsPrivateV4Address ch then ch
    else parsedHost
  | none => parsedHost

/-- The host/port that `enterPassiveModeIPv4` passes to
`connectForPassiveTransfer`: parse the PASV reply, then apply NAT repair. -/
def passiveDataTarget (message : String) (controlHost : Option String) : Option PasvTarget :=
  match parsePasvResponse message with
  | none => none
  | some t => some { host := natRepairHost t.host controlHost, port := t.port }

/-! ## proxySocket.ts: SOCKS5 negotiation replies -/

/-- JS array indexing `data[i]`: `undefined` out of range is `none`. -/
def jsIndex : List Nat → Nat → Option Nat
  | [], _ => none
  | x :: _, 0 => some x
  | _ :: xs, n + 1 => jsIndex xs n

/-- The `connectErrors` table of `ProxySocket` mapping SOCKS5 reply codes to
reason strings; absent keys give `undefined` (`none`). -/
def connectErrors (code : Nat) : Option String :=
  match code with
  | 0 => some "request granted"
  | 1 => some "general failure"
  | 2 => some "connection not allowed by ruleset"
  | 3 => some "network unreachable"
  | 4 => some "host unreachable"
  | 5 => some "connection refused by destination host"
  | 6 => some "TTL expired"
  | 7 => some "command not supported / protocol error"
  | 8 => some "address type not supported"
  | _ => none

/-- Outcome of `receiveSocksConnect`: either one of three emitted errors
(with the data the message is built from), or the transition to
Established. -/
inductive SocksConnectOutcome where
  | failedVersion (version : Option Nat)
  | failedCode (reason : Option String)
  | failedReserved (reserved : Option Nat)
  | established
  deriving DecidableEq, Repr

/-- `receiveSocksConnect` (proxySocket.ts, lines 255-295): check version,
reply code and reserved byte in order; only `05 00 00` leads to the
Established state.  A nonzero reply code is reported through the
`connectErrors` table. -/
def receiveSocksConnect (data : List Nat) : SocksConnectOutcome :=
  let v := jsIndex data 0
  let c := jsIndex data 1
  let r := jsIndex data 2
  if v != some 5 then .failedVersion v
  else if c != some 0 then .failedCode (c.bind connectErrors)
  else if r != some 0 then .failedReserved r
  else .established

/-- `receiveSocksAuth` (proxySocket.ts, lines 236-253): the greeting reply
must be exactly the two bytes `05 00`; anything else emits an error. -/
def receiveSocksAuthOk (data : List Nat) : Bool :=
  data.length == 2 && jsIndex data 0 == some 5 && jsIndex data 1 == some 0

/-! ## proxySocket.ts: data-event gating during negotiation -/

/-- Negotiation state of the tunnel: the `connected` flag and the
`connectStage` counter of `ProxySocket`. -/
structure TunnelState where
  connected : Bool
  connectStage : Nat
  deriving DecidableEq, Repr

/-- Events emitted by the tunnel that are relevant to data gating. -/
inductive TunnelEvent where
  | socksdata (buf : List Nat)
  | payload (buf : List Nat)
  | connectEvt
  | errorEvt
  deriving DecidableEq, Repr

/-- The `realSocket` `'data'` listener plus `receiveSocksConnectData`
(proxySocket.ts, lines 50-57 and 223-234).  When connected, the buffer is
re-emitted as payload `'data'`.  Otherwise a `'socksdata'` event is emitted
and the buffer is fed to the negotiation; on the stage-0 (greeting) path the
stage counter is incremented; on a successful CONNECT reply the tunnel
becomes connected, emits `'connect'` (after flushing buffered writes and
pipes) and then — because `this.connected` is now true and a `Buffer` is
always truthy — re-emits the very buffer holding the CONNECT reply as a
payload `'data'` event. -/
def dataListener (s : TunnelState) (buf : List Nat) : TunnelState × List TunnelEvent :=
  if s.connected then (s, [.payload buf])
  else if s.connectStage == 0 then
    ({ s with connectStage := s.connectStage + 1 },
     if receiveSocksAuthOk buf then [.socksdata buf] else [.socksdata buf, .errorEvt])
  else
    match receiveSocksConnect buf with
    | .established => ({ s with connected := true }, [.socksdata buf, .connectEvt, .payload buf])
    | _ => (s, [.socksdata buf, .errorEvt])

/-- Run the tunnel's data listener over a list of incoming buffers,
concatenating the emitted events. -/
def runTunnel (s : TunnelState) : List (List Nat) → TunnelState × List TunnelEvent
  | [] => (s, [])
  | b :: bs =>
    let r := dataListener s b
    let rest := runTunnel r.1 bs
    (rest.1, r.2 ++ rest.2)

/-- Recognizer for the `'connect'` event. -/
def isConnectEvt : TunnelEvent → Bool
  | .connectEvt => true
  | _ => false

/-- Recognizer for payload `'data'` events. -/
def isPayloadEvt : TunnelEvent → Bool
  | .payload _ => true
  | _ => false

/-- True when some payload `'data'` event occurs strictly before the first
`'connect'` event of the trace. -/
def payloadBeforeConnect (evs : List TunnelEvent) : Bool :=
  (evs.takeWhile (fun e => !isConnectEvt e)).any isPayloadEvt

/-! ## proxySocket.ts: connect re-entry guard -/

/-- The negotiation-relevant fields of `ProxySocket` touched by `connect`. -/
structure ConnState where
  connected : Bool
  connecting : Bool
  host : String
  port : Nat
  connectStage : Nat
  deriving DecidableEq, Repr

/-- `ProxySocket.connect` (proxySocket.ts, lines 134-169).  Returns the new
state, the synchronously thrown error message (if any), and whether a
connection to the proxy was initiated (`realSocket.connect` called).  The
two guard checks run before any mutation. -/
def proxyConnect (s : ConnState) (port : Nat) (host : String) :
    ConnState × Option String × Bool :=
  if s.connected then (s, some "realSocket is already connected", false)
  else if s.connecting then (s, some "realSocket is already connecting", false)
  else ({ s with host := host, port := port, connected := false, connecting := true },
        none, true)

/-! ## proxySocket.ts: buffered writes and pipes before Established -/

/-- A write call as stored in `unSent`: payload plus encoding, the encoding
already defaulted to `'binary'` when the caller passed none. -/
structure WriteItem where
  payload : String
  encoding : String
  deriving DecidableEq, Repr

/-- Buffering state of `ProxySocket`: the `unSent` and `unPiped` queues and,
for the underlying `realSocket`, the writes and pipe attachments it has
received in order. -/
structure ProxyIOState where
  connected : Bool
  unSent : List WriteItem
  unPiped : List Nat
  realWrites : List WriteItem
  realPipes : List Nat
  deriving DecidableEq, Repr

/-- A fresh `ProxySocket`: not connected, all queues empty. -/
def initProxyState : ProxyIOState :=
  { connected := false, unSent := [], unPiped := [], realWrites := [], realPipes := [] }

/-- `ProxySocket.write` (proxySocket.ts, lines 171-182): default the encoding
to `'binary'`; queue on `unSent` when not connected, otherwise forward to
`realSocket.write`. -/
def proxyWrite (s : ProxyIOState) (str : String) (encoding : Option String) : ProxyIOState :=
  let item : WriteItem := { payload := str, encoding := encoding.getD "binary" }
  if s.connected then { s with realWrites := s.realWrites ++ [item] }
  else { s with unSent := s.unSent ++ [item] }

/-- `ProxySocket.pipe` (proxySocket.ts, lines 117-124): queue on `unPiped`
when not connected, otherwise attach to `realSocket`. -/
def proxyPipe (s : ProxyIOState) (dest : Nat) : ProxyIOState :=
  if s.connected then { s with realPipes := s.realPipes ++ [dest] }
  else { s with unPiped := s.unPiped ++ [dest] }

/-- `ProxySocket.read` (proxySocket.ts, lines 93-98): `null` before the
tunnel is connected, otherwise whatever the real socket yields. -/
def proxyRead (s : ProxyIOState) (avail : Option String) : Option String :=
  if s.connected then avail else none

/-- The `while (this.unSent.length)` loop of `receiveSocksConnect`: shift the
front item and re-call `write` with it. -/
def drainWrites : List WriteItem → ProxyIOState → ProxyIOState
  | [], s => s
  | w :: ws, s => drainWrites ws (proxyWrite s w.payload (some w.encoding))

/-- The `while (this.unPiped.length)` loop of `receiveSocksConnect`. -/
def drainPipes : List Nat → ProxyIOState → ProxyIOState
  | [], s => s
  | d :: ds, s => drainPipes ds (proxyPipe s d)

/-- The buffering effect of a successful `receiveSocksConnect`
(proxySocket.ts, lines 275-295): set `connected`, then drain `unSent` and
`unPiped` front-first through `write`/`pipe`, which now reach the real
socket. -/
def receiveConnectFlush (s : ProxyIOState) : ProxyIOState :=
  drainPipes (drainWrites s.unSent { s with connected := true, unSent := [] }).unPiped
    { drainWrites s.unSent { s with connected := true, unSent := [] } with unPiped := [] }

/-- Calls made on the tunnel before the negotiation reaches Established. -/
inductive PreOp where
  | write (str : String) (encoding : Option String)
  | pipe (dest : Nat)
  deriving DecidableEq, Repr

/-- Apply one pre-Established call. -/
def applyPreOp (s : ProxyIOState) : PreOp → ProxyIOState
  | .write str enc => proxyWrite s str enc
  | .pipe d => proxyPipe s d

/-- Apply a sequence of calls. -/
def runPreOps (s : ProxyIOState) (ops : List PreOp) : ProxyIOState :=
  ops.foldl applyPreOp s

/-- The write item a pre-Established call would store, if it is a write. -/
def preOpWrite : PreOp → Option WriteItem
  | .write str enc => some { payload := str, encoding := enc.getD "binary" }
  | .pipe _ => none

/-- The pipe destination of a pre-Established call, if it is a pipe. -/
def preOpPipe : PreOp → Option Nat
  | .write _ _ => none
  | .pipe d => some d

/-! ## proxySocket.ts: the SOCKS5 CONNECT request -/

/-- `parseDomainName` (proxySocket.ts, lines 308-315): push the length, then
each UTF-16 code unit (ASCII for domain names). -/
def parseDomainName (host : List Char) : List (Option Int) :=
  some (host.length : Int) :: host.map (fun c => some (c.toNat : Int))

/-- `parseIPv4` (proxySocket.ts, lines 317-324): split on dots and push
`parseInt` of every part (`NaN` modeled as `none`). -/
def parseIPv4 (host : List Char) : List (Option Int) :=
  (jsSplit '.' host).map jsParseInt

/-- The `'0000'` filler group used by `parseIPv6`. -/
def zeroGroup : List Char := ['0', '0', '0', '0']

/-- `parts[0] = parts[0] || '0000'` of `parseIPv6`. -/
def fixFirst : List (List Char) → List (List Char)
  | [] => []
  | p :: ps => (if p.isEmpty then zeroGroup else p) :: ps

/-- `parts[parts.length - 1] = parts[parts.length - 1] || '0000'`. -/
def fixLast : List (List Char) → List (List Char)
  | [] => []
  | [p] => [if p.isEmpty then zeroGroup else p]
  | p :: ps => p :: fixLast ps

/-- `parts.indexOf('')`: index of the first empty part, if any. -/
def idxOfEmpty : List (List Char) → Option Nat
  | [] => none
  | p :: ps => if p.isEmpty then some 0 else (idxOfEmpty ps).map (· + 1)

/-- The group list `parseIPv6` ends up iterating over: split on `:`, replace
an empty first/last part by `'0000'`, and splice `8 - parts.length + 1`
filler groups over the first remaining empty part (the `::` marker).  The
count is `9 - parts.length` as a truncated `Nat` subtraction, matching the
JS `for` loop that runs zero times on a negative bound. -/
def parseIPv6parts (host : List Char) : List (List Char) :=
  match idxOfEmpty (fixLast (fixFirst (jsSplit ':' host))) with
  | none => fixLast (fixFirst (jsSplit ':' host))
  | some i =>
    (fixLast (fixFirst (jsSplit ':' host))).take i
      ++ List.replicate (9 - (fixLast (fixFirst (jsSplit ':' host))).length) zeroGroup
      ++ (fixLast (fixFirst (jsSplit ':' host))).drop (i + 1)

/-- The two bytes `parseIPv6` pushes for group `i`:
`num / 256 | 0` and `num % 256`.  A missing part (`parts[i]` undefined) or a
non-hex part gives `NaN`, so `NaN | 0 = 0` followed by `NaN`. -/
def groupBytes : Option (List Char) → List (Option Int)
  | none => [some 0, none]
  | some p =>
    match jsParseHex p with
    | none => [some 0, none]
    | some n => [some ((n / 256 : Nat) : Int), some ((n % 256 : Nat) : Int)]

/-- The `for (let i = 0; i < 8; ++i)` loop of `parseIPv6`: bytes of
`parts[0]` through `parts[7]` in order. -/
def ipv6Loop : Nat → List (List Char) → List (Option Int)
  | 0, _ => []
  | n + 1, [] => groupBytes none ++ ipv6Loop n []
  | n + 1, p :: ps => groupBytes (some p) ++ ipv6Loop n ps

/-- `parseIPv6` (proxySocket.ts, lines 326-347). -/
def parseIPv6 (host : List Char) : List (Option Int) :=
  ipv6Loop 8 (parseIPv6parts host)

/-- `htons` (proxySocket.ts, lines 349-352): append the port as a
network-order 16-bit value. -/
def htonsBytes (port : Nat) : List (Option Int) :=
  [some (((port >>> 8) &&& 255 : Nat) : Int), some ((port &&& 255 : Nat) : Int)]

/-- `sendConnect` (proxySocket.ts, lines 354-383): the SOCKS5 CONNECT request
bytes.  `ipKind` is the result of the Node builtin `net.isIP(host)` (0 for a
domain, 4 / 6 for IP literals), passed in as an oracle since it is not
repository code; the source's `switch` sends `default` and `case 0` to the
domain branch.  `Buffer.from` truncates every pushed number to a byte. -/
def sendConnectBytes (ipKind : Nat) (host : String) (port : Nat) : List Nat :=
  let addr : List (Option Int) :=
    if ipKind == 4 then some 1 :: parseIPv4 host.data
    else if ipKind == 6 then some 4 :: parseIPv6 host.data
    else some 3 :: parseDomainName host.data
  ([some 5, some 1, some 0] ++ addr ++ htonsBytes port).map toUInt8Byte

/-! ## transfer.ts: TransferResolver -/

/-- A socket as far as the resolver touches it: its idle-timeout setting. -/
structure FTPSocket where
  timeout : Nat
  deriving DecidableEq, Repr

/-- The fields of the `FTPContext` the resolver reads and writes:
the control socket's timeout, the optional data socket, and the configured
timeout `T` (`ftp.timeout`). -/
structure Ctx where
  socketTimeout : Nat
  dataSocket : Option FTPSocket
  timeout : Nat
  deriving DecidableEq, Repr

/-- An FTP control-channel response. -/
structure FTPResponse where
  code : Nat
  message : String
  deriving DecidableEq, Repr

/-- A JS error as inspected by the SOCKS upload callback: its optional
`code` property. -/
structure JsError where
  code : Option String
  deriving DecidableEq, Repr

/-- `TransferResolver` state plus the task it settles.  `resolved` and
`rejected` log every `task.resolve` / `task.reject` call in order. -/
structure ResolverState where
  ctx : Ctx
  response : Option FTPResponse
  dataTransferDone : Bool
  resolved : List FTPResponse
  rejected : List JsError
  deriving DecidableEq, Repr

/-- `TransferResolver.tryResolve` (transfer.ts, lines 207-214): when both the
data transfer is done and a response is recorded, clear the context's data
socket and resolve the task with the response. -/
def tryResolve (s : ResolverState) : ResolverState :=
  match s.response with
  | some r =>
    if s.dataTransferDone then
      { s with ctx := { s.ctx with dataSocket := none }, resolved := s.resolved ++ [r] }
    else s
  | none => s

/-- `TransferResolver.onDataStart` (transfer.ts, lines 149-160): throws
(`none`) without a data socket; otherwise moves timeout ownership to the
data socket (control timeout 0, data timeout `T`). -/
def onDataStart (s : ResolverState) : Option ResolverState :=
  match s.ctx.dataSocket with
  | none => none
  | some _ =>
    some { s with ctx := { s.ctx with
                           socketTimeout := 0
                           dataSocket := some { timeout := s.ctx.timeout } } }

/-- `TransferResolver.onDataDone` (transfer.ts, lines 165-177): return
timeout ownership to the control socket (control timeout `T`, data timeout 0
when the data socket is present), mark the data transfer done, and try to
resolve. -/
def onDataDone (s : ResolverState) : ResolverState :=
  let ctx1 : Ctx :=
    { s.ctx with
      socketTimeout := s.ctx.timeout
      dataSocket := match s.ctx.dataSocket with
                    | none => none
                    | some _ => some { timeout := 0 } }
  tryResolve { s with ctx := ctx1, dataTransferDone := true }

/-- `TransferResolver.onControlDone` (transfer.ts, lines 182-185): record the
response and try to resolve. -/
def onControlDone (s : ResolverState) (r : FTPResponse) : ResolverState :=
  tryResolve { s with response := some r }

/-- `TransferResolver.onError` (transfer.ts, lines 190-195): restore the
control timeout, drop the data-socket reference and reject the task. -/
def onError (s : ResolverState) (e : JsError) : ResolverState :=
  { s with
    ctx := { s.ctx with socketTimeout := s.ctx.timeout, dataSocket := none }
    rejected := s.rejected ++ [e] }

/-- The two completion signals whose arrival order is unknown. -/
inductive DoneEvent where
  | dataDone
  | controlDone (r : FTPResponse)
  deriving DecidableEq, Repr

/-- Deliver one completion signal to the resolver. -/
def stepEvent (s : ResolverState) : DoneEvent → ResolverState
  | .dataDone => onDataDone s
  | .controlDone r => onControlDone s r

/-- Deliver a sequence of completion signals. -/
def runEvents (s : ResolverState) (evs : List DoneEvent) : ResolverState :=
  evs.foldl stepEvent s

/-! ## transfer.ts: the SOCKS5 upload path -/

/-- The `remoteSizeAlright` flag as left by `checkRemoteSize` (transfer.ts,
lines 304-327): `serverFileSize` starts at 0 and keeps that value when the
probe connection or the SIZE query fails (`probe = none`); the flag is set
iff `serverFileSize === translength`. -/
def remoteSizeFlag (probe : Option Nat) (translength : Nat) : Bool :=
  probe.getD 0 == translength

/-- What the SOCKS upload pipeline callback makes the resolver do. -/
inductive UploadSignal where
  | signalDone
  | signalError (e : JsError)
  deriving DecidableEq, Repr

/-- The pipeline callback installed by `uploadFrom` for the SOCKS path
(transfer.ts, lines 264-279): no error means data completion; an error is
silenced into data completion exactly when it is an `ECONNRESET` and
`remoteSizeAlright` is set, and otherwise rejects the transfer. -/
def socksUploadDispatch (err : Option JsError) (remoteSizeAlright : Bool) : UploadSignal :=
  match err with
  | none => .signalDone
  | some e =>
    if e.code == some "ECONNRESET" && remoteSizeAlright then .signalDone
    else .signalError e

/-- Feed the dispatched signal into the resolver. -/
def applyUploadSignal (s : ResolverState) : UploadSignal → ResolverState
  | .signalDone => onDataDone s
  | .signalError e => onError s e

/-- A concrete resolver state used to exhibit the `onDataDone` frame effect
when a control response has already been recorded. -/
def respReadyState : ResolverState :=
  { ctx := { socketTimeout := 5000, dataSocket := some { timeout := 7 }, timeout := 5000 },
    response := some { code := 226, message := "Transfer complete" },
    dataTransferDone := false, resolved := [], rejected := [] }

/-- A freshly constructed resolver (no response, data not done, task
pending), with a data socket present. -/
def freshResolver : ResolverState :=
  { ctx := { socketTimeout := 5000, dataSocket := some { timeout := 0 }, timeout := 5000 },
    response := none, dataTransferDone := false, resolved := [], rejected := [] }

/-! ## Lemmas: runs, digits and splitting -/

theorem takeWhile_append_all (p : Char → Bool) (l1 l2 : List Char)
    (h : ∀ c ∈ l1, p c = true) :
    (l1 ++ l2).takeWhile p = l1 ++ l2.takeWhile p := by
  induction l1 with
  | nil => simp
  | cons c cs ih =>
    simp only [List.cons_append, List.takeWhile_cons, h c (by simp), if_pos]
    rw [ih (fun x hx => h x (List.mem_cons_of_mem _ hx))]

theorem dropWhile_append_all (p : Char → Bool) (l1 l2 : List Char)
    (h : ∀ c ∈ l1, p c = true) :
    (l1 ++ l2).dropWhile p = l2.dropWhile p := by
  induction l1 with
  | nil => simp
  | cons c cs ih =>
    simp only [List.cons_append, List.dropWhile_cons, h c (by simp), if_pos]
    exact ih (fun x hx => h x (List.mem_cons_of_mem _ hx))

theorem takeWhile_nil_of_head (p : Char → Bool) (l : List Char)
    (h : ∀ c, l.head? = some c → p c = false) :
    l.takeWhile p = [] := by
  cases l with
  | nil => rfl
  | cons c cs => simp [List.takeWhile_cons, h c rfl]

theorem dropWhile_self_of_head (p : Char → Bool) (l : List Char)
    (h : ∀ c, l.head? = some c → p c = false) :
    l.dropWhile p = l := by
  cases l with
  | nil => rfl
  | cons c cs => simp [List.dropWhile_cons, h c rfl]

theorem beq_false_of_isDigit (c x : Char) (h : c.isDigit = true)
    (hx : x.isDigit = false) : (c == x) = false := by
  cases hb : c == x with
  | false => rfl
  | true =>
    have hcx : c = x := eq_of_beq hb
    subst hcx
    rw [h] at hx
    exact Bool.noConfusion hx

theorem isPasvChar_of_digit (c : Char) (h : c.isDigit = true) :
    isPasvChar c = true := by
  simp [isPasvChar, h]

theorem nat_and_255 (n : Nat) : n &&& 255 = n % 256 := by
  have h := Nat.and_pow_two_sub_one_eq_mod n 8
  norm_num at h
  exact h

theorem jsParseInt_digits (d : List Char) (hne : d ≠ [])
    (hall : ∀ c ∈ d, c.isDigit = true) :
    jsParseInt d = some ((decDigitsVal d : Nat) : Int) := by
  obtain ⟨c, cs, rfl⟩ := List.exists_cons_of_ne_nil hne
  have hc : c.isDigit = true := hall c (by simp)
  have hm : (c == '-') = false := beq_false_of_isDigit c '-' hc (by decide)
  have hp : (c == '+') = false := beq_false_of_isDigit c '+' hc (by decide)
  have htake : (c :: cs).takeWhile Char.isDigit = c :: cs := by
    have h2 := takeWhile_append_all Char.isDigit (c :: cs) [] hall
    simpa using h2
  simp [jsParseInt, hm, hp, jsParseIntCore, htake]

theorem jsAnd255_digits (d : List Char) (hne : d ≠ [])
    (hall : ∀ c ∈ d, c.isDigit = true) :
    jsAnd255 (jsParseInt d) = decDigitsVal d &&& 255 := by
  rw [jsParseInt_digits d hne hall, nat_and_255]
  show ((decDigitsVal d : Int) % 256).toNat = decDigitsVal d % 256
  omega

theorem map_comma_dot_digits (d : List Char) (hall : ∀ c ∈ d, c.isDigit = true) :
    d.map (fun c => if c = ',' then '.' else c) = d := by
  induction d with
  | nil => rfl
  | cons c cs ih =>
    have hc : ¬(c = ',') := by
      intro h
      subst h
      exact absurd (hall ',' (by simp)) (by decide)
    simp only [List.map_cons, if_neg hc]
    rw [ih (fun x hx => hall x (List.mem_cons_of_mem _ hx))]

/-! ## Lemmas: the PASV regex -/

theorem comma_head_not_pasv (t : List Char) :
    ∀ c, (',' :: t).head? = some c → isPasvChar c = false := by
  intro c h
  simp only [List.head?_cons, Option.some.injEq] at h
  subst h
  decide

theorem grabRun_yes (d rest : List Char) (hne : d ≠ [])
    (hall : ∀ c ∈ d, isPasvChar c = true)
    (hrest : ∀ c, rest.head? = some c → isPasvChar c = false) :
    grabRun (d ++ rest) = some (d, rest) := by
  unfold grabRun
  rw [takeWhile_append_all _ _ _ hall, takeWhile_nil_of_head _ _ hrest,
      dropWhile_append_all _ _ _ hall, dropWhile_self_of_head _ _ hrest]
  cases d with
  | nil => exact absurd rfl hne
  | cons c cs => simp

theorem grabRun_no (c : Char) (t : List Char) (h : isPasvChar c = false) :
    grabRun (c :: t) = none := by
  unfold grabRun
  simp [List.takeWhile_cons, h]

theorem expectComma_cons (t : List Char) : expectComma (',' :: t) = some t := by
  simp [expectComma]

theorem pasvMatchAt_groups (d1 d2 d3 d4 d5 d6 post : List Char)
    (h1 : d1 ≠ []) (h2 : d2 ≠ []) (h3 : d3 ≠ []) (h4 : d4 ≠ [])
    (h5 : d5 ≠ []) (h6 : d6 ≠ [])
    (a1 : ∀ c ∈ d1, isPasvChar c = true) (a2 : ∀ c ∈ d2, isPasvChar c = true)
    (a3 : ∀ c ∈ d3, isPasvChar c = true) (a4 : ∀ c ∈ d4, isPasvChar c = true)
    (a5 : ∀ c ∈ d5, isPasvChar c = true) (a6 : ∀ c ∈ d6, isPasvChar c = true)
    (hpost : ∀ c, post.head? = some c → isPasvChar c = false) :
    pasvMatchAt (d1 ++ ',' :: (d2 ++ ',' :: (d3 ++ ',' :: (d4 ++ ',' :: (d5 ++ ',' :: (d6 ++ post)))))) =
      some (d1 ++ [','] ++ d2 ++ [','] ++ d3 ++ [','] ++ d4, d5, d6) := by
  have e1 := grabRun_yes d1 (',' :: (d2 ++ ',' :: (d3 ++ ',' :: (d4 ++ ',' :: (d5 ++ ',' :: (d6 ++ post))))))
    h1 a1 (comma_head_not_pasv _)
  have e2 := grabRun_yes d2 (',' :: (d3 ++ ',' :: (d4 ++ ',' :: (d5 ++ ',' :: (d6 ++ post)))))
    h2 a2 (comma_head_not_pasv _)
  have e3 := grabRun_yes d3 (',' :: (d4 ++ ',' :: (d5 ++ ',' :: (d6 ++ post))))
    h3 a3 (comma_head_not_pasv _)
  have e4 := grabRun_yes d4 (',' :: (d5 ++ ',' :: (d6 ++ post)))
    h4 a4 (comma_head_not_pasv _)
  have e5 := grabRun_yes d5 (',' :: (d6 ++ post))
    h5 a5 (comma_head_not_pasv _)
  have e6 := grabRun_yes d6 post h6 a6 hpost
  simp only [pasvMatchAt, e1, e2, e3, e4, e5, e6, expectComma_cons, Option.some_bind]

theorem pasvSearch_hit (cs : List Char) (g : List Char × List Char × List Char)
    (h : pasvMatchAt cs = some g) : pasvSearch cs = some g := by
  cases cs with
  | nil =>
    have : pasvMatchAt ([] : List Char) = none := rfl
    rw [this] at h
    exact Option.noConfusion h
  | cons c t => simp [pasvSearch, h]

theorem pasvSearch_skip (pre rest : List Char)
    (h : ∀ c ∈ pre, isPasvChar c = false) :
    pasvSearch (pre ++ rest) = pasvSearch rest := by
  induction pre with
  | nil => rfl
  | cons c cs ih =>
    have hm : pasvMatchAt (c :: (cs ++ rest)) = none := by
      unfold pasvMatchAt
      rw [grabRun_no c _ (h c (by simp))]
      rfl
    simp only [List.cons_append, pasvSearch, List.append_eq, hm]
    exact ih (fun x hx => h x (List.mem_cons_of_mem _ hx))

theorem expectComma_mem (t r : List Char) (h : expectComma t = some r) :
    ',' ∈ t := by
  cases t with
  | nil => simp [expectComma] at h
  | cons c cs =>
    cases hc : c == ',' with
    | true =>
      have : c = ',' := eq_of_beq hc
      subst this
      exact List.mem_cons_self _ _
    | false => simp [expectComma, hc] at h

theorem grabRun_rest_mem (cs : List Char) (pr : List Char × List Char)
    (h : grabRun cs = some pr) : ∀ x ∈ pr.2, x ∈ cs := by
  unfold grabRun at h
  by_cases he : (cs.takeWhile isPasvChar).isEmpty
  · simp [he] at h
  · simp only [he, Bool.false_eq_true, if_false, Option.some.injEq] at h
    intro x hx
    rw [← h] at hx
    exact (List.dropWhile_sublist isPasvChar).mem hx

theorem pasvMatchAt_has_comma (cs : List Char)
    (g : List Char × List Char × List Char)
    (h : pasvMatchAt cs = some g) : ',' ∈ cs := by
  unfold pasvMatchAt at h
  rw [Option.bind_eq_some] at h
  obtain ⟨p1, hp1, h⟩ := h
  rw [Option.bind_eq_some] at h
  obtain ⟨c1, hc1, _⟩ := h
  exact grabRun_rest_mem cs p1 hp1 ',' (expectComma_mem _ _ hc1)

theorem pasvSearch_no_comma (cs : List Char) (h : ',' ∉ cs) :
    pasvSearch cs = none := by
  induction cs with
  | nil => rfl
  | cons c rest ih =>
    have hm : pasvMatchAt (c :: rest) = none := by
      cases hg : pasvMatchAt (c :: rest) with
      | none => rfl
      | some g => exact absurd (pasvMatchAt_has_comma _ g hg) h
    simp only [pasvSearch, hm]
    exact ih (fun hmem => h (List.mem_cons_of_mem _ hmem))

/-! ## Claim theorems -/

/-- C5: For every PASV reply message containing digit groups
`h1,h2,h3,h4,p1,p2` (surrounded by a prefix without `[-\d]` characters and a
suffix not starting with one), `parsePasvResponse` returns host
`h1.h2.h3.h4` and port `(p1 & 0xFF) * 256 + (p2 & 0xFF)`; a message not
containing such a group (here: containing no comma at all) makes the parse
fail with an error (`none`); and parsing
`"227 Entering Passive Mode (192,168,1,100,10,229)"` yields host
`192.168.1.100` and port 2789.  The `< 2 ^ 53` bounds mark the range where
the integer model of JS `parseInt` is exact. -/
theorem pasv_parse_correct
    (d1 d2 d3 d4 d5 d6 pre post : List Char)
    (hpre : ∀ c ∈ pre, isPasvChar c = false)
    (hne1 : d1 ≠ []) (hne2 : d2 ≠ []) (hne3 : d3 ≠ []) (hne4 : d4 ≠ [])
    (hne5 : d5 ≠ []) (hne6 : d6 ≠ [])
    (hd1 : ∀ c ∈ d1, c.isDigit = true) (hd2 : ∀ c ∈ d2, c.isDigit = true)
    (hd3 : ∀ c ∈ d3, c.isDigit = true) (hd4 : ∀ c ∈ d4, c.isDigit = true)
    (hd5 : ∀ c ∈ d5, c.isDigit = true) (hd6 : ∀ c ∈ d6, c.isDigit = true)
    (hpost : ∀ c, post.head? = some c → isPasvChar c = false)
    (_hp5 : decDigitsVal d5 < 2 ^ 53) (_hp6 : decDigitsVal d6 < 2 ^ 53) :
    parsePasvResponse (String.mk (pre ++ d1 ++ [','] ++ d2 ++ [','] ++ d3 ++ [','] ++ d4 ++ [','] ++ d5 ++ [','] ++ d6 ++ post))
      = some { host := String.mk (d1 ++ ['.'] ++ d2 ++ ['.'] ++ d3 ++ ['.'] ++ d4),
               port := (decDigitsVal d5 &&& 255) * 256 + (decDigitsVal d6 &&& 255) } ∧
    (∀ msg : String, (∀ c ∈ msg.data, c ≠ ',') → parsePasvResponse msg = none) ∧
    parsePasvResponse "227 Entering Passive Mode (192,168,1,100,10,229)"
      = some { host := "192.168.1.100", port := 2789 } := by
  refine ⟨?_, ?_, by decide⟩
  · show parsePasvList (pre ++ d1 ++ [','] ++ d2 ++ [','] ++ d3 ++ [','] ++ d4 ++ [','] ++ d5 ++ [','] ++ d6 ++ post) = _
    have hshape : pre ++ d1 ++ [','] ++ d2 ++ [','] ++ d3 ++ [','] ++ d4 ++ [','] ++ d5 ++ [','] ++ d6 ++ post
        = pre ++ (d1 ++ ',' :: (d2 ++ ',' :: (d3 ++ ',' :: (d4 ++ ',' :: (d5 ++ ',' :: (d6 ++ post)))))) := by
      simp [List.append_assoc]
    rw [hshape]
    have hmatch := pasvMatchAt_groups d1 d2 d3 d4 d5 d6 post hne1 hne2 hne3 hne4 hne5 hne6
      (fun c hc => isPasvChar_of_digit c (hd1 c hc))
      (fun c hc => isPasvChar_of_digit c (hd2 c hc))
      (fun c hc => isPasvChar_of_digit c (hd3 c hc))
      (fun c hc => isPasvChar_of_digit c (hd4 c hc))
      (fun c hc => isPasvChar_of_digit c (hd5 c hc))
      (fun c hc => isPasvChar_of_digit c (hd6 c hc))
      hpost
    unfold parsePasvList
    rw [pasvSearch_skip pre _ hpre, pasvSearch_hit _ _ hmatch]
    simp [jsAnd255_digits d5 hne5 hd5, jsAnd255_digits d6 hne6 hd6,
          List.map_append, map_comma_dot_digits d1 hd1, map_comma_dot_digits d2 hd2,
          map_comma_dot_digits d3 hd3, map_comma_dot_digits d4 hd4]
  · intro msg hmsg
    show parsePasvList msg.data = none
    unfold parsePasvList
    rw [pasvSearch_no_comma msg.data (fun hmem => hmsg ',' hmem rfl)]

theorem pasv_parse_correct_witness :
    parsePasvResponse (String.mk (['('] ++ ['1', '9', '2'] ++ [','] ++ ['1', '6', '8'] ++ [','] ++ ['1'] ++ [','] ++ ['1', '0', '0'] ++ [','] ++ ['1', '0'] ++ [','] ++ ['2', '2', '9'] ++ [')']))
      = some { host := String.mk (['1', '9', '2'] ++ ['.'] ++ ['1', '6', '8'] ++ ['.'] ++ ['1'] ++ ['.'] ++ ['1', '0', '0']),
               port := (decDigitsVal ['1', '0'] &&& 255) * 256 + (decDigitsVal ['2', '2', '9'] &&& 255) } :=
  (pasv_parse_correct ['1', '9', '2'] ['1', '6', '8'] ['1'] ['1', '0', '0'] ['1', '0'] ['2', '2', '9'] ['('] [')']
    (by decide) (by decide) (by decide) (by decide) (by decide) (by decide) (by decide)
    (by decide) (by decide) (by decide) (by decide) (by decide) (by decide)
    (by intro c h; injection h with h2; subst h2; decide)
    (by decide) (by decide)).1

/-- C4: For every PASV negotiation: when the parsed host is RFC1918 private
and the control connection's remote address exists (is defined and nonempty,
the JS truthiness test of the source) and is not private, the data
connection targets the control remote at the parsed port; in every other
case — including an undefined control remote — it targets the parsed host.
The private-address predicate is modelled from the spec (netUtils.ts is not
under src/). -/
theorem pasv_nat_repair (msg ch h : String) (p : Nat)
    (hm : parsePasvResponse msg = some { host := h, port := p }) :
    (ipIsPrivateV4Address h = true ∧ ch ≠ "" ∧ ipIsPrivateV4Address ch = false →
      passiveDataTarget msg (some ch) = some { host := ch, port := p }) ∧
    (¬(ipIsPrivateV4Address h = true ∧ ch ≠ "" ∧ ipIsPrivateV4Address ch = false) →
      passiveDataTarget msg (some ch) = some { host := h, port := p }) ∧
    passiveDataTarget msg none = some { host := h, port := p } := by
  refine ⟨?_, ?_, ?_⟩
  · rintro ⟨hpriv, hne, hpub⟩
    simp [passiveDataTarget, hm, natRepairHost, hpriv, hpub, hne]
  · intro hnot
    have hcond : (ipIsPrivateV4Address h && ch != "" && !ipIsPrivateV4Address ch) = false := by
      cases h1 : ipIsPrivateV4Address h with
      | false => simp
      | true =>
        cases h2 : ipIsPrivateV4Address ch with
        | true => simp [h2]
        | false =>
          by_cases h3 : ch = ""
          · simp [h3]
          · exact absurd ⟨h1, h3, h2⟩ hnot
    simp [passiveDataTarget, hm, natRepairHost, hcond]
  · simp [passiveDataTarget, hm, natRepairHost]

theorem pasv_nat_repair_witness :
    passiveDataTarget "227 Entering Passive Mode (10,0,0,5,10,229)" (some "203.0.113.7")
      = some { host := "203.0.113.7", port := 2789 } :=
  (pasv_nat_repair "227 Entering Passive Mode (10,0,0,5,10,229)" "203.0.113.7" "10.0.0.5" 2789
    (by decide)).1 ⟨by decide, by decide, by decide⟩

/-- C2: On a fresh resolver, for either arrival order of the data-done and
control-done signals, the task is resolved exactly once — not after the
first signal alone — with the response passed to `onControlDone`, and the
context's data-socket reference is cleared on resolution. -/
theorem resolver_single_resolution (s0 : ResolverState) (r : FTPResponse)
    (h1 : s0.response = none) (h2 : s0.dataTransferDone = false)
    (h3 : s0.resolved = []) :
    (runEvents s0 [.dataDone, .controlDone r]).resolved = [r] ∧
    (runEvents s0 [.controlDone r, .dataDone]).resolved = [r] ∧
    (runEvents s0 [.dataDone]).resolved = [] ∧
    (runEvents s0 [.controlDone r]).resolved = [] ∧
    (runEvents s0 [.dataDone, .controlDone r]).ctx.dataSocket = none ∧
    (runEvents s0 [.controlDone r, .dataDone]).ctx.dataSocket = none := by
  cases hds : s0.ctx.dataSocket with
  | none =>
    simp [runEvents, stepEvent, onDataDone, onControlDone, tryResolve, h1, h2, h3, hds]
  | some d =>
    simp [runEvents, stepEvent, onDataDone, onControlDone, tryResolve, h1, h2, h3, hds]

theorem resolver_single_resolution_witness :
    (runEvents freshResolver [.dataDone, .controlDone { code := 226, message := "Done" }]).resolved
      = [{ code := 226, message := "Done" }] :=
  (resolver_single_resolution freshResolver { code := 226, message := "Done" } rfl rfl rfl).1

/-- C8 counterexample: when a control response is already recorded,
`onDataDone` resolves the transfer and thereby clears the context's
data-socket reference — the connection context changes beyond the two
timeout fields, contradicting the claim's frame condition.  Concretely,
`respReadyState` holds a data socket, yet after `onDataDone` the context no
longer does. -/
theorem timeout_handover_counterexample :
    respReadyState.ctx.dataSocket = some { timeout := 7 } ∧
    (onDataDone respReadyState).ctx.dataSocket = none ∧
    (onDataDone respReadyState).ctx.dataSocket ≠ some { timeout := 0 } := by
  refine ⟨rfl, rfl, by decide⟩

/-- C8 (amended): with a data socket present, `onDataStart` sets the control
socket's timeout to 0 and the data socket's timeout to the configured
timeout `T`, changing nothing else; `onDataDone` sets the control socket's
timeout back to `T` and the data socket's timeout to 0 and changes no other
context field — except that when a control response has already been
recorded the transfer resolves and the data-socket reference is
additionally cleared. -/
theorem timeout_handover_amended (s : ResolverState) (d : FTPSocket)
    (hds : s.ctx.dataSocket = some d) :
    onDataStart s = some { s with ctx := { s.ctx with
                                           socketTimeout := 0
                                           dataSocket := some { timeout := s.ctx.timeout } } } ∧
    (s.response = none →
      (onDataDone s).ctx = { s.ctx with
                             socketTimeout := s.ctx.timeout
                             dataSocket := some { timeout := 0 } }) ∧
    (∀ r, s.response = some r →
      (onDataDone s).ctx = { s.ctx with
                             socketTimeout := s.ctx.timeout
                             dataSocket := none }) := by
  refine ⟨?_, ?_, ?_⟩
  · simp [onDataStart, hds]
  · intro hr
    simp [onDataDone, tryResolve, hds, hr]
  · intro r hr
    simp [onDataDone, tryResolve, hds, hr]

theorem timeout_handover_amended_witness :
    (onDataDone respReadyState).ctx
      = { socketTimeout := 5000, dataSocket := none, timeout := 5000 } :=
  (timeout_handover_amended respReadyState { timeout := 7 } rfl).2.2
    { code := 226, message := "Transfer complete" } rfl

/-- C1: For the SOCKS5 upload callback, after the size probe has run and the
data socket was closed: an `ECONNRESET` error is treated as successful data
completion iff `remoteSizeAlright` is set; after a successful probe the flag
holds exactly when the server-reported size equals `translength`; and when
the reported size is smaller than the bytes handed to the tunnel, any error
delivered to the callback rejects the task — the resolution log never
grows, so the transfer cannot resolve as success. -/
theorem socks_upload_reset_iff (probe : Option Nat) (translength sz : Nat)
    (e : JsError) (s : ResolverState) :
    (e.code = some "ECONNRESET" →
      (socksUploadDispatch (some e) (remoteSizeFlag probe translength) = .signalDone ↔
        remoteSizeFlag probe translength = true)) ∧
    (probe = some sz → (remoteSizeFlag probe translength = true ↔ sz = translength)) ∧
    (probe = some sz → sz < translength →
      socksUploadDispatch (some e) (remoteSizeFlag probe translength) = .signalError e ∧
      (applyUploadSignal s (socksUploadDispatch (some e) (remoteSizeFlag probe translength))).resolved
        = s.resolved ∧
      (applyUploadSignal s (socksUploadDispatch (some e) (remoteSizeFlag probe translength))).rejected
        = s.rejected ++ [e]) := by
  refine ⟨?_, ?_, ?_⟩
  · intro hc
    cases hflag : remoteSizeFlag probe translength with
    | true => simp [socksUploadDispatch, hc, hflag]
    | false => simp [socksUploadDispatch, hc, hflag]
  · intro hp
    simp [remoteSizeFlag, hp]
  · intro hp hlt
    have hflag : remoteSizeFlag probe translength = false := by
      simp [remoteSizeFlag, hp]
      omega
    rw [hflag]
    have hdisp : socksUploadDispatch (some e) false = .signalError e := by
      simp [socksUploadDispatch]
    rw [hdisp]
    exact ⟨rfl, rfl, rfl⟩

theorem socks_upload_reset_iff_witness :
    socksUploadDispatch (some { code := some "ECONNRESET" }) (remoteSizeFlag (some 900) 1024)
      = .signalError { code := some "ECONNRESET" } :=
  ((socks_upload_reset_iff (some 900) 1024 900 { code := some "ECONNRESET" } freshResolver).2.2
    rfl (by decide)).1

/-- C10: calling `connect` on a tunnel that is already connected or already
connecting throws synchronously, leaves the negotiation state unchanged and
does not initiate a connection to the proxy. -/
theorem connect_reentry_throws (s : ConnState) (port : Nat) (host : String)
    (h : s.connected = true ∨ s.connecting = true) :
    (proxyConnect s port host).1 = s ∧
    (∃ m, (proxyConnect s port host).2.1 = some m) ∧
    (proxyConnect s port host).2.2 = false := by
  rcases h with h | h
  · simp [proxyConnect, h]
  · cases hc : s.connected with
    | true => simp [proxyConnect, hc]
    | false => simp [proxyConnect, hc, h]

theorem connect_reentry_throws_witness :
    (proxyConnect { connected := true, connecting := false, host := "", port := 0, connectStage := 0 }
      21 "example.org").2.2 = false :=
  (connect_reentry_throws
    { connected := true, connecting := false, host := "", port := 0, connectStage := 0 }
    21 "example.org" (Or.inl rfl)).2.2

/-- C7: a SOCKS5 CONNECT reply transitions the tunnel to Established iff its
first three bytes are version `05`, code `00` and reserved `00`; any other
reply yields a terminal error instead, and a version-correct reply with a
nonzero code carries the code's entry of the standard SOCKS5 reason table
(`connectErrors`). -/
theorem socks_reply_validation (buf : List Nat) (c : Nat) :
    (receiveSocksConnect buf = .established ↔
      jsIndex buf 0 = some 5 ∧ jsIndex buf 1 = some 0 ∧ jsIndex buf 2 = some 0) ∧
    (jsIndex buf 0 = some 5 → jsIndex buf 1 = some c → c ≠ 0 →
      receiveSocksConnect buf = .failedCode (connectErrors c)) := by
  constructor
  · constructor
    · intro h
      by_cases h0 : jsIndex buf 0 = some 5
      · by_cases h1 : jsIndex buf 1 = some 0
        · by_cases h2 : jsIndex buf 2 = some 0
          · exact ⟨h0, h1, h2⟩
          · simp [receiveSocksConnect, h0, h1, h2] at h
        · simp [receiveSocksConnect, h0, h1] at h
      · simp [receiveSocksConnect, h0] at h
    · rintro ⟨h0, h1, h2⟩
      simp [receiveSocksConnect, h0, h1, h2]
  · intro h0 h1 hc
    simp [receiveSocksConnect, h0, h1, hc]

theorem socks_reply_validation_witness :
    receiveSocksConnect [5, 4, 0] = .failedCode (some "host unreachable") :=
  (socks_reply_validation [5, 4, 0] 4).2 rfl rfl (by decide)

/-! ## Lemmas: tunnel event traces -/

theorem payloadBeforeConnect_append_quiet (l1 l2 : List TunnelEvent)
    (h1 : ∀ e ∈ l1, isPayloadEvt e = false ∧ isConnectEvt e = false)
    (h2 : payloadBeforeConnect l2 = false) :
    payloadBeforeConnect (l1 ++ l2) = false := by
  induction l1 with
  | nil => simpa using h2
  | cons e es ih =>
    have he := h1 e (by simp)
    have htail := ih (fun x hx => h1 x (List.mem_cons_of_mem _ hx))
    unfold payloadBeforeConnect at htail ⊢
    simp only [List.cons_append, List.takeWhile_cons, he.2, Bool.not_false, if_pos,
               List.any_cons, he.1, Bool.false_or]
    exact htail

theorem payloadBeforeConnect_append_after (l1 l2 : List TunnelEvent)
    (h1 : payloadBeforeConnect l1 = false) (h2 : TunnelEvent.connectEvt ∈ l1) :
    payloadBeforeConnect (l1 ++ l2) = false := by
  induction l1 with
  | nil => simp at h2
  | cons e es ih =>
    cases he : isConnectEvt e with
    | true =>
      unfold payloadBeforeConnect
      simp [List.takeWhile_cons, he]
    | false =>
      have h2' : TunnelEvent.connectEvt ∈ es := by
        cases List.mem_cons.mp h2 with
        | inl h => subst h; simp [isConnectEvt] at he
        | inr h => exact h
      unfold payloadBeforeConnect at h1 ⊢
      simp only [List.takeWhile_cons, he, Bool.not_false, if_pos, List.any_cons,
                 Bool.or_eq_false_iff] at h1
      simp only [List.cons_append, List.takeWhile_cons, he, Bool.not_false, if_pos,
                 List.any_cons, h1.1, Bool.false_or]
      exact ih h1.2 h2'

/-- C9 counterexample: feeding a valid greeting reply and then a valid
CONNECT reply to a fresh tunnel produces a payload `'data'` event whose
bytes are exactly the SOCKS5 CONNECT reply — negotiation bytes ARE emitted
as payload `'data'` (proxySocket.ts lines 231-233 re-emit the buffer once
`connected` is set). -/
theorem tunnel_data_gating_counterexample :
    TunnelEvent.payload [5, 0, 0, 1, 0, 0, 0, 0, 0, 21]
      ∈ (runTunnel { connected := false, connectStage := 0 }
          [[5, 0], [5, 0, 0, 1, 0, 0, 0, 0, 0, 21]]).2 := by
  decide

/-- C9 (amended): starting from a not-yet-connected tunnel, no payload
`'data'` event is ever emitted before the `'connect'` event, so forwarding
begins only after Established — but on the transition the buffer carrying
the successful CONNECT reply is itself re-emitted as a payload `'data'`
event immediately after `'connect'`. -/
theorem tunnel_data_gating_amended (stage : Nat) (bufs : List (List Nat))
    (s : TunnelState) (buf : List Nat) :
    payloadBeforeConnect (runTunnel { connected := false, connectStage := stage } bufs).2 = false ∧
    (s.connected = false → s.connectStage ≠ 0 → receiveSocksConnect buf = .established →
      dataListener s buf
        = ({ s with connected := true }, [.socksdata buf, .connectEvt, .payload buf])) := by
  constructor
  · induction bufs generalizing stage with
    | nil => rfl
    | cons b bs ih =>
      show payloadBeforeConnect
        ((dataListener ⟨false, stage⟩ b).2 ++ (runTunnel (dataListener ⟨false, stage⟩ b).1 bs).2) = false
      by_cases hstage : stage = 0
      · have hd : (dataListener ⟨false, stage⟩ b).1 = ⟨false, stage + 1⟩ ∧
            ((dataListener ⟨false, stage⟩ b).2 = [.socksdata b] ∨
             (dataListener ⟨false, stage⟩ b).2 = [.socksdata b, .errorEvt]) := by
          cases hab : receiveSocksAuthOk b with
          | true => simp [dataListener, hstage, hab]
          | false => simp [dataListener, hstage, hab]
        rcases hd with ⟨hd1, hd2 | hd2⟩ <;>
          rw [hd1, hd2] <;>
          refine payloadBeforeConnect_append_quiet _ _ ?_ (ih (stage + 1)) <;>
          intro e hel
        · simp only [List.mem_singleton] at hel
          subst hel
          exact ⟨rfl, rfl⟩
        · rcases List.mem_cons.mp hel with h | h
          · subst h; exact ⟨rfl, rfl⟩
          · simp only [List.mem_singleton] at h
            subst h
            exact ⟨rfl, rfl⟩
      · cases hrc : receiveSocksConnect b with
        | established =>
          have hd : dataListener ⟨false, stage⟩ b
              = (⟨true, stage⟩, [.socksdata b, .connectEvt, .payload b]) := by
            simp [dataListener, hstage, hrc]
          rw [hd]
          exact payloadBeforeConnect_append_after _ _ rfl (by simp)
        | failedVersion v =>
          have hd : dataListener ⟨false, stage⟩ b = (⟨false, stage⟩, [.socksdata b, .errorEvt]) := by
            simp [dataListener, hstage, hrc]
          rw [hd]
          refine payloadBeforeConnect_append_quiet _ _ ?_ (ih stage)
          intro e hel
          rcases List.mem_cons.mp hel with h | h
          · subst h; exact ⟨rfl, rfl⟩
          · simp only [List.mem_singleton] at h
            subst h
            exact ⟨rfl, rfl⟩
        | failedCode r =>
          have hd : dataListener ⟨false, stage⟩ b = (⟨false, stage⟩, [.socksdata b, .errorEvt]) := by
            simp [dataListener, hstage, hrc]
          rw [hd]
          refine payloadBeforeConnect_append_quiet _ _ ?_ (ih stage)
          intro e hel
          rcases List.mem_cons.mp hel with h | h
          · subst h; exact ⟨rfl, rfl⟩
          · simp only [List.mem_singleton] at h
            subst h
            exact ⟨rfl, rfl⟩
        | failedReserved r =>
          have hd : dataListener ⟨false, stage⟩ b = (⟨false, stage⟩, [.socksdata b, .errorEvt]) := by
            simp [dataListener, hstage, hrc]
          rw [hd]
          refine payloadBeforeConnect_append_quiet _ _ ?_ (ih stage)
          intro e hel
          rcases List.mem_cons.mp hel with h | h
          · subst h; exact ⟨rfl, rfl⟩
          · simp only [List.mem_singleton] at h
            subst h
            exact ⟨rfl, rfl⟩
  · intro h0 hs hrc
    simp [dataListener, h0, hs, hrc]

theorem tunnel_data_gating_amended_witness :
    dataListener { connected := false, connectStage := 1 } [5, 0, 0, 1, 9, 9, 9, 9, 0, 21]
      = ({ connected := true, connectStage := 1 },
         [.socksdata [5, 0, 0, 1, 9, 9, 9, 9, 0, 21], .connectEvt,
          .payload [5, 0, 0, 1, 9, 9, 9, 9, 0, 21]]) :=
  (tunnel_data_gating_amended 0 [] { connected := false, connectStage := 1 }
    [5, 0, 0, 1, 9, 9, 9, 9, 0, 21]).2 rfl (by decide) (by decide)

/-! ## Lemmas: buffered writes and pipes -/

theorem drainWrites_spec (ws : List WriteItem) (s : ProxyIOState)
    (h : s.connected = true) :
    drainWrites ws s = { s with realWrites := s.realWrites ++ ws } := by
  induction ws generalizing s with
  | nil => simp [drainWrites]
  | cons w t ih =>
    show drainWrites t (proxyWrite s w.payload (some w.encoding)) = _
    have hw : proxyWrite s w.payload (some w.encoding)
        = { s with realWrites := s.realWrites ++ [w] } := by
      simp [proxyWrite, h]
    rw [hw, ih { s with realWrites := s.realWrites ++ [w] } h]
    simp

theorem drainPipes_spec (ds : List Nat) (s : ProxyIOState)
    (h : s.connected = true) :
    drainPipes ds s = { s with realPipes := s.realPipes ++ ds } := by
  induction ds generalizing s with
  | nil => simp [drainPipes]
  | cons d t ih =>
    show drainPipes t (proxyPipe s d) = _
    have hp : proxyPipe s d = { s with realPipes := s.realPipes ++ [d] } := by
      simp [proxyPipe, h]
    rw [hp, ih { s with realPipes := s.realPipes ++ [d] } h]
    simp

theorem receiveConnectFlush_spec (s : ProxyIOState) :
    receiveConnectFlush s
      = { connected := true, unSent := [], unPiped := [],
          realWrites := s.realWrites ++ s.unSent, realPipes := s.realPipes ++ s.unPiped } := by
  unfold receiveConnectFlush
  rw [drainWrites_spec _ _ rfl]
  rw [drainPipes_spec _ _ rfl]

theorem runPreOps_spec (ops : List PreOp) (s : ProxyIOState)
    (h : s.connected = false) :
    runPreOps s ops
      = { s with unSent := s.unSent ++ ops.filterMap preOpWrite,
                 unPiped := s.unPiped ++ ops.filterMap preOpPipe } := by
  induction ops generalizing s with
  | nil => simp [runPreOps]
  | cons op t ih =>
    cases op with
    | write str enc =>
      show runPreOps (proxyWrite s str enc) t = _
      have hw : proxyWrite s str enc
          = { s with unSent := s.unSent ++ [{ payload := str, encoding := enc.getD "binary" }] } := by
        simp [proxyWrite, h]
      rw [hw, ih { s with unSent := s.unSent ++ [{ payload := str, encoding := enc.getD "binary" }] } h]
      simp [preOpWrite, preOpPipe, List.filterMap_cons]
    | pipe d =>
      show runPreOps (proxyPipe s d) t = _
      have hp : proxyPipe s d = { s with unPiped := s.unPiped ++ [d] } := by
        simp [proxyPipe, h]
      rw [hp, ih { s with unPiped := s.unPiped ++ [d] } h]
      simp [preOpWrite, preOpPipe, List.filterMap_cons]

/-- C3: Writes and pipes issued before the negotiation reaches Established
never touch the real socket and are queued; on the transition every queued
write is flushed to the underlying socket in exactly the FIFO order issued,
with none lost, and every pending pipe destination is attached in order;
`read` before Established returns `null` (`none`). -/
theorem proxy_buffering_fifo (ops : List PreOp) :
    (runPreOps initProxyState ops).realWrites = [] ∧
    (runPreOps initProxyState ops).realPipes = [] ∧
    (receiveConnectFlush (runPreOps initProxyState ops)).realWrites = ops.filterMap preOpWrite ∧
    (receiveConnectFlush (runPreOps initProxyState ops)).realPipes = ops.filterMap preOpPipe ∧
    (receiveConnectFlush (runPreOps initProxyState ops)).unSent = [] ∧
    (receiveConnectFlush (runPreOps initProxyState ops)).unPiped = [] ∧
    (∀ (s : ProxyIOState) (avail : Option String), s.connected = false →
      proxyRead s avail = none) := by
  have hrun := runPreOps_spec ops initProxyState rfl
  rw [hrun, receiveConnectFlush_spec]
  refine ⟨rfl, rfl, by simp [initProxyState], by simp [initProxyState], rfl, rfl, ?_⟩
  intro s avail hs
  simp [proxyRead, hs]

theorem proxy_buffering_fifo_witness :
    proxyRead initProxyState (some "226 Transfer complete") = none :=
  (proxy_buffering_fifo []).2.2.2.2.2.2 initProxyState (some "226 Transfer complete") rfl

/-! ## Lemmas: splitting and joining host strings -/

theorem jsSplit_ne_nil (sep : Char) (l : List Char) : jsSplit sep l ≠ [] := by
  cases l with
  | nil => simp [jsSplit]
  | cons c cs =>
    unfold jsSplit
    cases h : jsSplit sep cs with
    | nil => simp
    | cons r rs => by_cases hc : c == sep <;> simp [hc]

theorem jsSplit_no_sep (sep : Char) (l : List Char) (h : sep ∉ l) :
    jsSplit sep l = [l] := by
  induction l with
  | nil => rfl
  | cons c cs ih =>
    have hcs : sep ∉ cs := fun hm => h (List.mem_cons_of_mem _ hm)
    have hc : (c == sep) = false := by
      cases hb : c == sep with
      | false => rfl
      | true =>
        have hcv : c = sep := eq_of_beq hb
        subst hcv
        exact absurd (List.mem_cons_self _ _) h
    unfold jsSplit
    rw [ih hcs]
    simp [hc]

theorem jsSplit_sep_cons (sep : Char) (p rest : List Char) (hp : sep ∉ p) :
    jsSplit sep (p ++ sep :: rest) = p :: jsSplit sep rest := by
  induction p with
  | nil =>
    show jsSplit sep (sep :: rest) = [] :: jsSplit sep rest
    cases h : jsSplit sep rest with
    | nil => exact absurd h (jsSplit_ne_nil sep rest)
    | cons r rs =>
      have hstep : jsSplit sep (sep :: rest)
          = (match jsSplit sep rest with
             | [] => [[]]
             | r :: rs => if sep == sep then [] :: r :: rs else (sep :: r) :: rs) := rfl
      rw [hstep, h]
      simp
  | cons c cs ih =>
    have hcs : sep ∉ cs := fun hm => hp (List.mem_cons_of_mem _ hm)
    have hc : (c == sep) = false := by
      cases hb : c == sep with
      | false => rfl
      | true =>
        have hcv : c = sep := eq_of_beq hb
        subst hcv
        exact absurd (List.mem_cons_self _ _) hp
    show jsSplit sep (c :: (cs ++ sep :: rest)) = (c :: cs) :: jsSplit sep rest
    have hstep : jsSplit sep (c :: (cs ++ sep :: rest))
        = (match jsSplit sep (cs ++ sep :: rest) with
           | [] => [[]]
           | r :: rs => if c == sep then [] :: r :: rs else (c :: r) :: rs) := rfl
    rw [hstep, ih hcs]
    simp [hc]

theorem jsSplit_joinSep (sep : Char) (parts : List (List Char)) (hne : parts ≠ [])
    (h : ∀ p ∈ parts, sep ∉ p) :
    jsSplit sep (joinSep sep parts) = parts := by
  induction parts with
  | nil => exact absurd rfl hne
  | cons p ps ih =>
    cases ps with
    | nil => exact jsSplit_no_sep sep p (h p (by simp))
    | cons q qs =>
      show jsSplit sep (p ++ sep :: joinSep sep (q :: qs)) = p :: q :: qs
      rw [jsSplit_sep_cons sep p _ (h p (by simp))]
      rw [ih (by simp) (fun x hx => h x (List.mem_cons_of_mem _ hx))]

theorem no_dot_of_digits (p : List Char) (h : ∀ c ∈ p, c.isDigit = true) :
    '.' ∉ p :=
  fun hm => absurd (h '.' hm) (by decide)

theorem no_colon_of_hex (p : List Char) (h : ∀ c ∈ p, isHexDigit c = true) :
    ':' ∉ p :=
  fun hm => absurd (h ':' hm) (by decide)

theorem toUInt8_ofNat (n : Nat) (h : n < 256) :
    toUInt8Byte (some ((n : Nat) : Int)) = n := by
  show ((n : Int) % 256).toNat = n
  omega

theorem jsParseHex_hex (p : List Char) (hne : p ≠ [])
    (hall : ∀ c ∈ p, isHexDigit c = true) :
    jsParseHex p = some (hexDigitsVal p) := by
  have htake : p.takeWhile isHexDigit = p := by
    have h2 := takeWhile_append_all isHexDigit p [] hall
    simpa using h2
  simp [jsParseHex, htake, hne]

/-! ## Lemmas: IPv6 group normalization -/

theorem fixFirst_keep (p : List Char) (ps : List (List Char)) (h : p ≠ []) :
    fixFirst (p :: ps) = p :: ps := by
  cases p with
  | nil => exact absurd rfl h
  | cons c cs => simp [fixFirst]

theorem getLast?_cons_of_ne_nil (p : List Char) (l : List (List Char)) (h : l ≠ []) :
    (p :: l).getLast? = l.getLast? := by
  cases l with
  | nil => exact absurd rfl h
  | cons q qs => exact List.getLast?_cons_cons

theorem getLast?_append_cons (l1 : List (List Char)) (x : List Char)
    (l2 : List (List Char)) :
    (l1 ++ x :: l2).getLast? = (x :: l2).getLast? := by
  induction l1 with
  | nil => rfl
  | cons p ps ih =>
    rw [List.cons_append, getLast?_cons_of_ne_nil p _ (by simp), ih]

theorem mem_of_getLast?_eq (l : List (List Char)) (x : List Char)
    (h : l.getLast? = some x) : x ∈ l := by
  induction l with
  | nil => simp at h
  | cons p ps ih =>
    cases ps with
    | nil =>
      have hx : p = x := by simpa using h
      subst hx
      exact List.mem_cons_self _ _
    | cons q qs =>
      rw [List.getLast?_cons_cons] at h
      exact List.mem_cons_of_mem _ (ih h)

theorem fixLast_keep (l : List (List Char))
    (h : ∀ p, l.getLast? = some p → p ≠ []) :
    fixLast l = l := by
  induction l with
  | nil => rfl
  | cons p ps ih =>
    cases ps with
    | nil =>
      have hp : p ≠ [] := h p rfl
      cases p with
      | nil => exact absurd rfl hp
      | cons c cs => simp [fixLast]
    | cons q qs =>
      show p :: fixLast (q :: qs) = p :: q :: qs
      rw [ih (fun x hx => h x (by rw [List.getLast?_cons_cons]; exact hx))]

theorem idxOfEmpty_none (l : List (List Char)) (h : ∀ p ∈ l, p ≠ []) :
    idxOfEmpty l = none := by
  induction l with
  | nil => rfl
  | cons p ps ih =>
    have hp : p.isEmpty = false := by
      cases p with
      | nil => exact absurd rfl (h [] (by simp))
      | cons c cs => rfl
    simp [idxOfEmpty, hp, ih (fun x hx => h x (List.mem_cons_of_mem _ hx))]

theorem idxOfEmpty_mid (pre suf : List (List Char)) (h : ∀ p ∈ pre, p ≠ []) :
    idxOfEmpty (pre ++ [] :: suf) = some pre.length := by
  induction pre with
  | nil => rfl
  | cons p ps ih =>
    have hp : p.isEmpty = false := by
      cases p with
      | nil => exact absurd rfl (h [] (by simp))
      | cons c cs => rfl
    simp [idxOfEmpty, hp, ih (fun x hx => h x (List.mem_cons_of_mem _ hx))]

theorem ipv6_bytes_map (parts : List (List Char))
    (hall : ∀ g ∈ parts, g ≠ [] ∧ (∀ c ∈ g, isHexDigit c = true) ∧ hexDigitsVal g < 65536) :
    (ipv6Loop parts.length parts).map toUInt8Byte
      = parts.flatMap (fun g => [hexDigitsVal g / 256, hexDigitsVal g % 256]) := by
  induction parts with
  | nil => rfl
  | cons p ps ih =>
    obtain ⟨hne, hhex, hlt⟩ := hall p (by simp)
    have hjs : jsParseHex p = some (hexDigitsVal p) := jsParseHex_hex p hne hhex
    show (groupBytes (some p) ++ ipv6Loop ps.length ps).map toUInt8Byte = _
    rw [List.map_append, ih (fun x hx => hall x (List.mem_cons_of_mem _ hx))]
    have hb1 : toUInt8Byte (some ((hexDigitsVal p / 256 : Nat) : Int)) = hexDigitsVal p / 256 :=
      toUInt8_ofNat _ (by omega)
    have hb2 : toUInt8Byte (some ((hexDigitsVal p % 256 : Nat) : Int)) = hexDigitsVal p % 256 :=
      toUInt8_ofNat _ (by omega)
    simp only [groupBytes, hjs, List.map_cons, List.map_nil, List.flatMap_cons, hb1, hb2]

theorem ipv6_bytes_map_fuel (n : Nat) (parts : List (List Char))
    (hn : parts.length = n)
    (hall : ∀ g ∈ parts, g ≠ [] ∧ (∀ c ∈ g, isHexDigit c = true) ∧ hexDigitsVal g < 65536) :
    (ipv6Loop n parts).map toUInt8Byte
      = parts.flatMap (fun g => [hexDigitsVal g / 256, hexDigitsVal g % 256]) := by
  subst hn
  exact ipv6_bytes_map parts hall

theorem parseIPv6parts_full (gs : List (List Char)) (hne : gs ≠ [])
    (hall : ∀ g ∈ gs, g ≠ [] ∧ (∀ c ∈ g, isHexDigit c = true)) :
    parseIPv6parts (joinSep ':' gs) = gs := by
  unfold parseIPv6parts
  rw [jsSplit_joinSep ':' gs hne (fun p hp => no_colon_of_hex p (hall p hp).2)]
  obtain ⟨g0, gs', rfl⟩ := List.exists_cons_of_ne_nil hne
  rw [fixFirst_keep g0 gs' (hall g0 (by simp)).1]
  rw [fixLast_keep _ (fun x hx => (hall x (mem_of_getLast?_eq _ x hx)).1)]
  rw [idxOfEmpty_none _ (fun p hp => (hall p hp).1)]

theorem parseIPv6parts_mid (pre suf : List (List Char)) (hpre : pre ≠ []) (hsuf : suf ≠ [])
    (hallp : ∀ g ∈ pre, g ≠ [] ∧ (∀ c ∈ g, isHexDigit c = true))
    (halls : ∀ g ∈ suf, g ≠ [] ∧ (∀ c ∈ g, isHexDigit c = true)) :
    parseIPv6parts (joinSep ':' (pre ++ [] :: suf))
      = pre ++ List.replicate (8 - (pre.length + suf.length)) zeroGroup ++ suf := by
  have hparts : ∀ p ∈ pre ++ [] :: suf, ':' ∉ p := by
    intro p hp
    rcases List.mem_append.mp hp with h | h
    · exact no_colon_of_hex p (hallp p h).2
    · rcases List.mem_cons.mp h with h2 | h2
      · subst h2; simp
      · exact no_colon_of_hex p (halls p h2).2
  unfold parseIPv6parts
  rw [jsSplit_joinSep ':' _ (by simp) hparts]
  obtain ⟨g0, pre', rfl⟩ := List.exists_cons_of_ne_nil hpre
  rw [List.cons_append, fixFirst_keep g0 _ (hallp g0 (by simp)).1, ← List.cons_append]
  have hlast : ∀ x, ((g0 :: pre') ++ [] :: suf).getLast? = some x → x ≠ [] := by
    intro x hx
    rw [getLast?_append_cons] at hx
    obtain ⟨s0, suf', rfl⟩ := List.exists_cons_of_ne_nil hsuf
    rw [List.getLast?_cons_cons] at hx
    exact (halls x (mem_of_getLast?_eq _ x hx)).1
  rw [fixLast_keep _ hlast]
  rw [idxOfEmpty_mid _ suf (fun p hp => (hallp p hp).1)]
  show List.take (g0 :: pre').length ((g0 :: pre') ++ [] :: suf)
      ++ List.replicate (9 - ((g0 :: pre') ++ [] :: suf).length) zeroGroup
      ++ List.drop ((g0 :: pre').length + 1) ((g0 :: pre') ++ [] :: suf)
      = (g0 :: pre') ++ List.replicate (8 - ((g0 :: pre').length + suf.length)) zeroGroup ++ suf
  rw [List.take_left]
  have hdrop : ((g0 :: pre') ++ [] :: suf).drop ((g0 :: pre').length + 1) = suf := by
    have hsplit : (g0 :: pre') ++ [] :: suf = ((g0 :: pre') ++ [[]]) ++ suf := by simp
    have hlen2 : (g0 :: pre').length + 1 = ((g0 :: pre') ++ [[]]).length := by simp
    rw [hsplit, hlen2, List.drop_left]
  rw [hdrop]
  have hcount : 9 - ((g0 :: pre') ++ [] :: suf).length
      = 8 - ((g0 :: pre').length + suf.length) := by
    simp only [List.length_append, List.length_cons]
    omega
  rw [hcount]

theorem joinSep_mid (sep : Char) (pre suf : List (List Char))
    (hpre : pre ≠ []) (hsuf : suf ≠ []) :
    joinSep sep (pre ++ [] :: suf) = joinSep sep pre ++ sep :: sep :: joinSep sep suf := by
  induction pre with
  | nil => exact absurd rfl hpre
  | cons p ps ih =>
    cases ps with
    | nil =>
      obtain ⟨s0, suf', rfl⟩ := List.exists_cons_of_ne_nil hsuf
      rfl
    | cons q qs =>
      show p ++ sep :: joinSep sep ((q :: qs) ++ [] :: suf)
          = (p ++ sep :: joinSep sep (q :: qs)) ++ sep :: sep :: joinSep sep suf
      rw [ih (by simp)]
      simp

theorem sendConnect_domain (k port : Nat) (host : String)
    (hk4 : k ≠ 4) (hk6 : k ≠ 6) (hlen : host.data.length < 256)
    (hascii : ∀ c ∈ host.data, c.toNat < 128) (hport : port < 65536) :
    sendConnectBytes k host port
      = [5, 1, 0, 3, host.data.length] ++ host.data.map Char.toNat
          ++ [port / 256, port % 256] := by
  have hbk4 : (k == 4) = false := by simp [hk4]
  have hbk6 : (k == 6) = false := by simp [hk6]
  unfold sendConnectBytes parseDomainName htonsBytes
  simp only [hbk4, hbk6, Bool.false_eq_true, if_false]
  rw [List.map_append, List.map_append]
  simp only [List.map_cons, List.map_nil, List.map_map]
  have h5 : toUInt8Byte (some 5) = 5 := by decide
  have h1 : toUInt8Byte (some 1) = 1 := by decide
  have h0 : toUInt8Byte (some 0) = 0 := by decide
  have h3 : toUInt8Byte (some 3) = 3 := by decide
  have hlenb : toUInt8Byte (some ((host.data.length : Nat) : Int)) = host.data.length :=
    toUInt8_ofNat _ hlen
  have hmap : host.data.map (toUInt8Byte ∘ fun c => some ((c.toNat : Nat) : Int))
      = host.data.map Char.toNat :=
    List.map_congr_left (fun c hc =>
      toUInt8_ofNat c.toNat (Nat.lt_trans (hascii c hc) (by norm_num)))
  have hhi : toUInt8Byte (some (((port >>> 8) &&& 255 : Nat) : Int)) = port / 256 := by
    rw [toUInt8_ofNat _ (by rw [nat_and_255]; omega)]
    rw [Nat.shiftRight_eq_div_pow, nat_and_255]
    norm_num
    omega
  have hlo : toUInt8Byte (some ((port &&& 255 : Nat) : Int)) = port % 256 := by
    rw [toUInt8_ofNat _ (by rw [nat_and_255]; omega), nat_and_255]
  rw [h5, h1, h0, h3, hlenb, hmap, hhi, hlo]
  simp

theorem sendConnect_ipv4 (port : Nat) (g1 g2 g3 g4 : List Char)
    (hg : ∀ g ∈ [g1, g2, g3, g4], g ≠ [] ∧ (∀ c ∈ g, c.isDigit = true) ∧ decDigitsVal g < 256)
    (hport : port < 65536) :
    sendConnectBytes 4 (String.mk (joinSep '.' [g1, g2, g3, g4])) port
      = [5, 1, 0, 1, decDigitsVal g1, decDigitsVal g2, decDigitsVal g3, decDigitsVal g4]
          ++ [port / 256, port % 256] := by
  obtain ⟨hne1, hd1, hv1⟩ := hg g1 (by simp)
  obtain ⟨hne2, hd2, hv2⟩ := hg g2 (by simp)
  obtain ⟨hne3, hd3, hv3⟩ := hg g3 (by simp)
  obtain ⟨hne4, hd4, hv4⟩ := hg g4 (by simp)
  have hdata : (String.mk (joinSep '.' [g1, g2, g3, g4])).data
      = joinSep '.' [g1, g2, g3, g4] := rfl
  unfold sendConnectBytes parseIPv4 htonsBytes
  rw [hdata, jsSplit_joinSep '.' [g1, g2, g3, g4] (by simp) ?nodot]
  case nodot =>
    intro p hp
    simp only [List.mem_cons, List.not_mem_nil, or_false] at hp
    rcases hp with rfl | rfl | rfl | rfl
    · exact no_dot_of_digits p hd1
    · exact no_dot_of_digits p hd2
    · exact no_dot_of_digits p hd3
    · exact no_dot_of_digits p hd4
  simp only [Nat.reduceBEq, if_true, List.map_cons, List.map_nil, List.map_append,
             jsParseInt_digits g1 hne1 hd1, jsParseInt_digits g2 hne2 hd2,
             jsParseInt_digits g3 hne3 hd3, jsParseInt_digits g4 hne4 hd4]
  have hhi : toUInt8Byte (some (((port >>> 8) &&& 255 : Nat) : Int)) = port / 256 := by
    rw [toUInt8_ofNat _ (by rw [nat_and_255]; omega)]
    rw [Nat.shiftRight_eq_div_pow, nat_and_255]
    norm_num
    omega
  have hlo : toUInt8Byte (some ((port &&& 255 : Nat) : Int)) = port % 256 := by
    rw [toUInt8_ofNat _ (by rw [nat_and_255]; omega), nat_and_255]
  rw [toUInt8_ofNat _ hv1, toUInt8_ofNat _ hv2, toUInt8_ofNat _ hv3, toUInt8_ofNat _ hv4,
      hhi, hlo]
  simp
  decide

theorem sendConnect_ipv6_full (port : Nat) (gs : List (List Char))
    (hlen : gs.length = 8)
    (hall : ∀ g ∈ gs, g ≠ [] ∧ (∀ c ∈ g, isHexDigit c = true) ∧ hexDigitsVal g < 65536)
    (hport : port < 65536) :
    sendConnectBytes 6 (String.mk (joinSep ':' gs)) port
      = [5, 1, 0, 4] ++ gs.flatMap (fun g => [hexDigitsVal g / 256, hexDigitsVal g % 256])
          ++ [port / 256, port % 256] := by
  have hne : gs ≠ [] := by
    intro h
    rw [h] at hlen
    simp at hlen
  have hdata : (String.mk (joinSep ':' gs)).data = joinSep ':' gs := rfl
  unfold sendConnectBytes parseIPv6 htonsBytes
  rw [hdata, parseIPv6parts_full gs hne (fun g hg => ⟨(hall g hg).1, (hall g hg).2.1⟩)]
  simp only [Nat.reduceBEq, Bool.false_eq_true, if_false, if_true]
  simp only [List.map_append, List.map_cons, List.map_nil]
  rw [ipv6_bytes_map_fuel 8 gs hlen hall]
  have hhi : toUInt8Byte (some (((port >>> 8) &&& 255 : Nat) : Int)) = port / 256 := by
    rw [toUInt8_ofNat _ (by rw [nat_and_255]; omega)]
    rw [Nat.shiftRight_eq_div_pow, nat_and_255]
    norm_num
    omega
  have hlo : toUInt8Byte (some ((port &&& 255 : Nat) : Int)) = port % 256 := by
    rw [toUInt8_ofNat _ (by rw [nat_and_255]; omega), nat_and_255]
  rw [hhi, hlo]
  simp
  decide

theorem sendConnect_ipv6_mid (port : Nat) (pre suf : List (List Char))
    (hpre : pre ≠ []) (hsuf : suf ≠ []) (hlen : pre.length + suf.length < 8)
    (hall : ∀ g ∈ pre ++ suf, g ≠ [] ∧ (∀ c ∈ g, isHexDigit c = true) ∧ hexDigitsVal g < 65536)
    (hport : port < 65536) :
    sendConnectBytes 6 (String.mk (joinSep ':' pre ++ [':', ':'] ++ joinSep ':' suf)) port
      = [5, 1, 0, 4]
          ++ (pre ++ List.replicate (8 - (pre.length + suf.length)) zeroGroup ++ suf).flatMap
              (fun g => [hexDigitsVal g / 256, hexDigitsVal g % 256])
          ++ [port / 256, port % 256] := by
  have hallp : ∀ g ∈ pre, g ≠ [] ∧ (∀ c ∈ g, isHexDigit c = true) ∧ hexDigitsVal g < 65536 :=
    fun g hg => hall g (List.mem_append.mpr (Or.inl hg))
  have halls : ∀ g ∈ suf, g ≠ [] ∧ (∀ c ∈ g, isHexDigit c = true) ∧ hexDigitsVal g < 65536 :=
    fun g hg => hall g (List.mem_append.mpr (Or.inr hg))
  have hhost : joinSep ':' pre ++ [':', ':'] ++ joinSep ':' suf
      = joinSep ':' (pre ++ [] :: suf) := by
    rw [joinSep_mid ':' pre suf hpre hsuf]
    simp
  have hdata : (String.mk (joinSep ':' pre ++ [':', ':'] ++ joinSep ':' suf)).data
      = joinSep ':' pre ++ [':', ':'] ++ joinSep ':' suf := rfl
  unfold sendConnectBytes parseIPv6 htonsBytes
  rw [hdata, hhost]
  rw [parseIPv6parts_mid pre suf hpre hsuf
        (fun g hg => ⟨(hallp g hg).1, (hallp g hg).2.1⟩)
        (fun g hg => ⟨(halls g hg).1, (halls g hg).2.1⟩)]
  have hexp : ∀ g ∈ pre ++ List.replicate (8 - (pre.length + suf.length)) zeroGroup ++ suf,
      g ≠ [] ∧ (∀ c ∈ g, isHexDigit c = true) ∧ hexDigitsVal g < 65536 := by
    intro g hg
    rcases List.mem_append.mp hg with h | h
    · rcases List.mem_append.mp h with h2 | h2
      · exact hallp g h2
      · have hz : g = zeroGroup := List.eq_of_mem_replicate h2
        subst hz
        refine ⟨by decide, by decide, by decide⟩
    · exact halls g h
  have hlen8 : (pre ++ List.replicate (8 - (pre.length + suf.length)) zeroGroup ++ suf).length
      = 8 := by
    simp only [List.length_append, List.length_replicate]
    omega
  simp only [Nat.reduceBEq, Bool.false_eq_true, if_false, if_true]
  simp only [List.map_append, List.map_cons, List.map_nil]
  rw [ipv6_bytes_map_fuel 8 _ hlen8 hexp]
  have hhi : toUInt8Byte (some (((port >>> 8) &&& 255 : Nat) : Int)) = port / 256 := by
    rw [toUInt8_ofNat _ (by rw [nat_and_255]; omega)]
    rw [Nat.shiftRight_eq_div_pow, nat_and_255]
    norm_num
    omega
  have hlo : toUInt8Byte (some ((port &&& 255 : Nat) : Int)) = port % 256 := by
    rw [toUInt8_ofNat _ (by rw [nat_and_255]; omega), nat_and_255]
  rw [hhi, hlo]
  simp
  decide

/-- C6: The SOCKS5 CONNECT request built by `sendConnect` begins `05 01 00`
followed by the address encoding — `01` plus the four octets for an IPv4
literal; `04` plus 16 bytes for an IPv6 literal, a `::` shorthand being
expanded with zero groups; and otherwise (`net.isIP` neither 4 nor 6) `03`
plus a length byte plus the ASCII bytes of the domain — and ends with the
port as a network-order 16-bit value.  Concretely, CONNECT to
`example.org:21` is `05 01 00 03 0b "example.org" 00 15`. -/
theorem socks_connect_request_encoding
    (k port : Nat) (host : String) (g1 g2 g3 g4 : List Char)
    (gs pre suf : List (List Char)) :
    (k ≠ 4 → k ≠ 6 → host.data.length < 256 → (∀ c ∈ host.data, c.toNat < 128) →
      port < 65536 →
      sendConnectBytes k host port
        = [5, 1, 0, 3, host.data.length] ++ host.data.map Char.toNat
            ++ [port / 256, port % 256]) ∧
    ((∀ g ∈ [g1, g2, g3, g4], g ≠ [] ∧ (∀ c ∈ g, c.isDigit = true) ∧ decDigitsVal g < 256) →
      port < 65536 →
      sendConnectBytes 4 (String.mk (joinSep '.' [g1, g2, g3, g4])) port
        = [5, 1, 0, 1, decDigitsVal g1, decDigitsVal g2, decDigitsVal g3, decDigitsVal g4]
            ++ [port / 256, port % 256]) ∧
    (gs.length = 8 →
      (∀ g ∈ gs, g ≠ [] ∧ (∀ c ∈ g, isHexDigit c = true) ∧ hexDigitsVal g < 65536) →
      port < 65536 →
      sendConnectBytes 6 (String.mk (joinSep ':' gs)) port
        = [5, 1, 0, 4] ++ gs.flatMap (fun g => [hexDigitsVal g / 256, hexDigitsVal g % 256])
            ++ [port / 256, port % 256]) ∧
    (pre ≠ [] → suf ≠ [] → pre.length + suf.length < 8 →
      (∀ g ∈ pre ++ suf, g ≠ [] ∧ (∀ c ∈ g, isHexDigit c = true) ∧ hexDigitsVal g < 65536) →
      port < 65536 →
      sendConnectBytes 6 (String.mk (joinSep ':' pre ++ [':', ':'] ++ joinSep ':' suf)) port
        = [5, 1, 0, 4]
            ++ (pre ++ List.replicate (8 - (pre.length + suf.length)) zeroGroup ++ suf).flatMap
                (fun g => [hexDigitsVal g / 256, hexDigitsVal g % 256])
            ++ [port / 256, port % 256]) ∧
    sendConnectBytes 0 "example.org" 21
      = [5, 1, 0, 3, 11, 101, 120, 97, 109, 112, 108, 101, 46, 111, 114, 103, 0, 21] :=
  ⟨fun hk4 hk6 hlen hascii hport => sendConnect_domain k port host hk4 hk6 hlen hascii hport,
   fun hg hport => sendConnect_ipv4 port g1 g2 g3 g4 hg hport,
   fun hlen hall hport => sendConnect_ipv6_full port gs hlen hall hport,
   fun hpre hsuf hlen hall hport => sendConnect_ipv6_mid port pre suf hpre hsuf hlen hall hport,
   by decide⟩

theorem socks_connect_request_encoding_witness :
    sendConnectBytes 4 (String.mk (joinSep '.' [['1', '9', '2'], ['1', '6', '8'], ['1'], ['1']])) 2789
      = [5, 1, 0, 1, decDigitsVal ['1', '9', '2'], decDigitsVal ['1', '6', '8'],
         decDigitsVal ['1'], decDigitsVal ['1']] ++ [2789 / 256, 2789 % 256] ∧
    sendConnectBytes 6 (String.mk (joinSep ':'
        [['2', '0', '0', '1'], ['d', 'b', '8'], ['0'], ['0'], ['0'], ['0'], ['0'], ['1']])) 21
      = [5, 1, 0, 4]
          ++ ([['2', '0', '0', '1'], ['d', 'b', '8'], ['0'], ['0'], ['0'], ['0'], ['0'], ['1']] :
              List (List Char)).flatMap
              (fun g => [hexDigitsVal g / 256, hexDigitsVal g % 256])
          ++ [21 / 256, 21 % 256] ∧
    sendConnectBytes 6 (String.mk (joinSep ':' [['f', 'e', '8', '0']] ++ [':', ':']
        ++ joinSep ':' [['1']])) 21
      = [5, 1, 0, 4]
          ++ (([['f', 'e', '8', '0']] : List (List Char))
                ++ List.replicate (8 - (([['f', 'e', '8', '0']] : List (List Char)).length
                    + ([['1']] : List (List Char)).length)) zeroGroup
                ++ [['1']]).flatMap
              (fun g => [hexDigitsVal g / 256, hexDigitsVal g % 256])
          ++ [21 / 256, 21 % 256] ∧
    sendConnectBytes 3 "localhost" 8888
      = [5, 1, 0, 3, ("localhost" : String).data.length]
          ++ ("localhost" : String).data.map Char.toNat ++ [8888 / 256, 8888 % 256] :=
  ⟨(socks_connect_request_encoding 0 2789 "" ['1', '9', '2'] ['1', '6', '8'] ['1'] ['1']
      [] [] []).2.1 (by decide) (by decide),
   (socks_connect_request_encoding 0 21 "" [] [] [] []
      [['2', '0', '0', '1'], ['d', 'b', '8'], ['0'], ['0'], ['0'], ['0'], ['0'], ['1']]
      [] []).2.2.1 rfl (by decide) (by decide),
   (socks_connect_request_encoding 0 21 "" [] [] [] [] []
      [['f', 'e', '8', '0']] [['1']]).2.2.2.1 (by decide) (by decide) (by decide)
      (by decide) (by decide),
   (socks_connect_request_encoding 3 8888 "localhost" [] [] [] [] [] [] []).1
      (by decide) (by decide) (by decide) (by decide) (by decide)⟩
